import Mathlib

/-!
Verification of the pose-evaluation engine: angle geometry, weighted
similarity scoring, stability, symmetry, session aggregation and feedback.

Scoring functions (`src/utils/scoring.ts`) operate on JavaScript objects
mapping angle names to numbers; these are embedded as association lists
`List (String × ℚ)` (JS object keys are unique and iteration follows
insertion order, which list order models).  All arithmetic of the scoring
module is embedded over ℚ; the geometric functions (`src/utils/angles.ts`)
use square roots and inverse cosine and are embedded over ℝ.
-/

/-- An object mapping angle names to numbers (`PoseAngles`, `PoseTolerances`,
`PoseWeights`, and deviation records alike). -/
abbrev AngleMap := List (String × ℚ)

/-- JS property access `m[key]`: the value stored for `key`, if present. -/
def lookupAngle : AngleMap → String → Option ℚ
  | [], _ => none
  | (k, v) :: rest, key => if k = key then some v else lookupAngle rest key

/-- JS `v || d` on an possibly-absent number: `undefined` and the falsy `0`
both fall back to the default `d`. -/
def orDefault : Option ℚ → ℚ → ℚ
  | none, d => d
  | some v, d => if v = 0 then d else v

/-- JS `Math.round`: round half toward positive infinity. -/
def jsRound (q : ℚ) : ℤ := ⌊q + 1 / 2⌋

/-- Accumulator of the `for` loop of `similarityScore`:
`totalWeight`, `weightedSum` and the `deviations` record built so far. -/
structure SimAcc where
  totalWeight : ℚ
  weightedSum : ℚ
  deviations : AngleMap
deriving DecidableEq

/-- The `for (const angleName of angleNames)` loop of `similarityScore`
(src/utils/scoring.ts lines 38-54).  An entry of the target object always
carries its value, so only the user lookup can be `undefined`; a skipped
angle contributes nothing.  The head entry is processed before the rest:
the sums are accumulated commutatively and the head's deviation is recorded
first, as in the source's left-to-right iteration. -/
def simLoop (userAngles tolerances weights : AngleMap) : List (String × ℚ) → SimAcc
  | [] => ⟨0, 0, []⟩
  | (angleName, targetAngle) :: rest =>
    let acc := simLoop userAngles tolerances weights rest
    match lookupAngle userAngles angleName with
    | none => acc
    | some userAngle =>
      let tolerance := orDefault (lookupAngle tolerances angleName) 30
      let weight := orDefault (lookupAngle weights angleName) 1
      let diff := |userAngle - targetAngle|
      let angleScore := max 0 (1 - diff / tolerance)
      ⟨acc.totalWeight + weight, acc.weightedSum + angleScore * weight,
        (angleName, diff) :: acc.deviations⟩

/-- Return value of `similarityScore`. -/
structure SimResult where
  score : ℚ
  deviations : AngleMap
deriving DecidableEq

/-- `similarityScore` (src/utils/scoring.ts lines 27-58). -/
def similarityScore (userAngles targetAngles tolerances weights : AngleMap) : SimResult :=
  let acc := simLoop userAngles tolerances weights targetAngles
  { score := if 0 < acc.totalWeight then acc.weightedSum / acc.totalWeight else 0
    deviations := acc.deviations }

/-- `FrameScore` (src/utils/scoring.ts lines 17-21). -/
structure FrameScore where
  score : ℚ
  timestamp : ℤ
  angles : AngleMap
deriving DecidableEq

/-- `computeSessionScore` (src/utils/scoring.ts lines 63-74); the
`stabilityPenalty` default `0.9` is made explicit at call sites. -/
def computeSessionScore (frameScores : List FrameScore) (stabilityPenalty : ℚ) : ℚ :=
  if frameScores.length = 0 then 0
  else
    let scores := frameScores.map FrameScore.score
    let avgScore := scores.sum / (scores.length : ℚ)
    avgScore * stabilityPenalty * 100

/-- The three grade tiers of `scoreToGrade`. -/
inductive Grade where
  | Beginner
  | Intermediate
  | Advanced
deriving DecidableEq

/-- `scoreToGrade` (src/utils/scoring.ts lines 79-83). -/
def scoreToGrade (score : ℚ) : Grade :=
  if 80 ≤ score then Grade.Advanced
  else if 60 ≤ score then Grade.Intermediate
  else Grade.Beginner

/-- The joint-label humanization of `generateFeedback`:
underscores to spaces, the literal word `angle` removed, trimmed. -/
def humanizeJointLabel (angleName : String) : String :=
  let und := "_"
  let sp := " "
  let ang := "angle"
  let nothing := ""
  (String.replace (String.replace angleName und sp) ang nothing).trim

/-- The hint pushed by `generateFeedback` for one surviving deviation entry
(src/utils/scoring.ts lines 103-116).  When either endpoint is absent the JS
subtraction yields `NaN`, `Math.round(NaN)` is `NaN`, `NaN > 0` is false and
`Math.abs(NaN)` is `NaN`, so the `Close` branch runs with a `NaN` delta. -/
def hintText (targetAngles userAngles : AngleMap) (angleName : String) : String :=
  let jointLabel := humanizeJointLabel angleName
  match lookupAngle targetAngles angleName, lookupAngle userAngles angleName with
  | some target, some current =>
    let diff := jsRound (target - current)
    let absDiff := diff.natAbs
    if 0 < diff then "Open " ++ jointLabel ++ " by ≈" ++ toString absDiff ++ "°"
    else "Close " ++ jointLabel ++ " by ≈" ++ toString absDiff ++ "°"
  | _, _ => "Close " ++ jointLabel ++ " by ≈NaN°"

/-- `Object.entries(deviations).sort((a, b) => b[1] - a[1])`: a stable sort
descending by deviation value (JS `Array.prototype.sort` is stable). -/
def sortDevs (deviations : AngleMap) : AngleMap :=
  List.mergeSort deviations fun a b => b.2 ≤ a.2

/-- The `for (const [angleName, deviation] of sortedDeviations)` loop of
`generateFeedback`: entries below the 10-degree threshold are skipped. -/
def feedbackLoop (targetAngles userAngles : AngleMap) : AngleMap → List String
  | [] => []
  | (angleName, deviation) :: rest =>
    if deviation < 10 then feedbackLoop targetAngles userAngles rest
    else hintText targetAngles userAngles angleName ::
      feedbackLoop targetAngles userAngles rest

/-- `generateFeedback` (src/utils/scoring.ts lines 88-120); the `maxHints`
default `3` is made explicit at call sites.  `slice(0, maxHints)` on a
nonnegative count is `List.take`. -/
def generateFeedback (deviations targetAngles userAngles : AngleMap)
    (maxHints : ℕ) : List String :=
  feedbackLoop targetAngles userAngles ((sortDevs deviations).take maxHints)

/-- `computeAccuracy` (src/utils/scoring.ts lines 125-127). -/
def computeAccuracy (similarityScoreValue : ℚ) : ℤ :=
  jsRound (similarityScoreValue * 100)

/-- The fixed left/right pair table of `computeSymmetry`. -/
def symmetryPairs : List (String × String) :=
  [("left_shoulder_angle", "right_shoulder_angle"),
   ("left_elbow_angle", "right_elbow_angle"),
   ("left_hip_angle", "right_hip_angle"),
   ("left_knee_angle", "right_knee_angle")]

/-- The `for (const [left, right] of pairs)` loop of `computeSymmetry`:
accumulated symmetry total and count of complete pairs. -/
def symLoop (userAngles : AngleMap) : List (String × String) → ℚ × ℕ
  | [] => (0, 0)
  | (left, right) :: rest =>
    let acc := symLoop userAngles rest
    match lookupAngle userAngles left, lookupAngle userAngles right with
    | some l, some r =>
      let diff := |l - r|
      let symmetry := max 0 (1 - diff / 180)
      (acc.1 + symmetry, acc.2 + 1)
    | _, _ => acc

/-- `computeSymmetry` (src/utils/scoring.ts lines 132-153). -/
def computeSymmetry (userAngles : AngleMap) : ℤ :=
  let acc := symLoop userAngles symmetryPairs
  if 0 < acc.2 then jsRound (acc.1 / (acc.2 : ℚ) * 100) else 0

/-- The metrics of `completeLevel` that are computed from the recorded
frames (src/components, `ChallengeFlow.completeLevel`): `accuracy`,
`symmetry` and `feedback` of the session summary. -/
structure SessionMetrics where
  accuracy : ℤ
  symmetry : ℤ
  feedback : List String
deriving DecidableEq

/-- The accuracy/symmetry/feedback computation of `completeLevel`:
`frameScoresRef.current[frameScoresRef.current.length - 1]` is the last
recorded frame (`undefined` when none was recorded, in which case accuracy
and symmetry are 0 and feedback is `[]`); `generateFeedback` is called with
its default `maxHints = 3` on the deviations of the last frame's angles
against the current pose's targets. -/
def completeLevelMetrics (frameScores : List FrameScore)
    (targetAngles tolerances weights : AngleMap) : SessionMetrics :=
  match frameScores.getLast? with
  | none => ⟨0, 0, []⟩
  | some lastFrame =>
    ⟨computeAccuracy lastFrame.score,
     computeSymmetry lastFrame.angles,
     generateFeedback
       (similarityScore lastFrame.angles targetAngles tolerances weights).deviations
       targetAngles lastFrame.angles 3⟩

/-- `Point3D` (src/utils/angles.ts). -/
structure Point3D where
  x : ℝ
  y : ℝ
  z : ℝ

/-- `computeAngle` (src/utils/angles.ts): the angle at vertex B between the
rays B→A and B→C, in degrees; 0 when either vector has zero magnitude. -/
noncomputable def computeAngle (jointA jointB jointC : Point3D) : ℝ :=
  let vBAx := jointA.x - jointB.x
  let vBAy := jointA.y - jointB.y
  let vBAz := jointA.z - jointB.z
  let vBCx := jointC.x - jointB.x
  let vBCy := jointC.y - jointB.y
  let vBCz := jointC.z - jointB.z
  let dotProduct := vBAx * vBCx + vBAy * vBCy + vBAz * vBCz
  let magnitudeBA := Real.sqrt (vBAx ^ 2 + vBAy ^ 2 + vBAz ^ 2)
  let magnitudeBC := Real.sqrt (vBCx ^ 2 + vBCy ^ 2 + vBCz ^ 2)
  if magnitudeBA = 0 ∨ magnitudeBC = 0 then 0
  else
    let cosine := dotProduct / (magnitudeBA * magnitudeBC)
    let clampedCosine := max (-1) (min 1 cosine)
    let angleRadians := Real.arccos clampedCosine
    angleRadians * 180 / Real.pi

/-- `stabilityScore` (src/utils/angles.ts): 1 for series of fewer than two
samples, otherwise a linear decay of the population standard deviation. -/
noncomputable def stabilityScore (angleTimeSeries : List ℝ) : ℝ :=
  if angleTimeSeries.length < 2 then 1
  else
    let mean := angleTimeSeries.sum / (angleTimeSeries.length : ℝ)
    let variance :=
      (angleTimeSeries.map fun val => (val - mean) ^ 2).sum / (angleTimeSeries.length : ℝ)
    let stdDev := Real.sqrt variance
    let maxStdDev := 15
    max 0 (1 - stdDev / maxStdDev)

/-- Population variance in the spec's sense, for comparison with the code:
the mean of squared deviations from the mean. -/
noncomputable def popVariance (l : List ℝ) : ℝ :=
  (l.map fun x => (x - l.sum / (l.length : ℝ)) ^ 2).sum / (l.length : ℝ)

/-- Population standard deviation in the spec's sense. -/
noncomputable def popStdDev (l : List ℝ) : ℝ :=
  Real.sqrt (popVariance l)

/-- Per-pair symmetry contributions, in the spec's phrasing: one value
`max(0, 1 - |left - right|/180)` per pair whose both sides are present in
the input, in table order. -/
def pairSymmetries (userAngles : AngleMap) (pairs : List (String × String)) : List ℚ :=
  pairs.filterMap fun p =>
    match lookupAngle userAngles p.1, lookupAngle userAngles p.2 with
    | some l, some r => some (max 0 (1 - |l - r| / 180))
    | _, _ => none

/-- The same map with every explicitly supplied value `0` replaced by the
default `d`; used to state the falsy-coalescing behavior of the `||`
defaults in `similarityScore`. -/
def replaceZeroValues (d : ℚ) (m : AngleMap) : AngleMap :=
  m.map fun p => (p.1, if p.2 = 0 then d else p.2)

/-! ## Theorems -/

theorem stabilityScore_eq_decay (l : List ℝ) (h : 2 ≤ l.length) :
    stabilityScore l = max 0 (1 - popStdDev l / 15) := by
  unfold stabilityScore popStdDev popVariance
  rw [if_neg (by omega)]

theorem popStdDev_of_constant (l : List ℝ) (c : ℝ) (h : 0 < l.length)
    (hc : ∀ x ∈ l, x = c) : popStdDev l = 0 := by
  have hlen : (l.length : ℝ) ≠ 0 := Nat.cast_ne_zero.2 (by omega)
  have hmean : l.sum / (l.length : ℝ) = c := by
    rw [List.sum_eq_card_nsmul l c hc, nsmul_eq_mul]
    exact mul_div_cancel_left₀ c hlen
  have hzero : (l.map fun x => (x - l.sum / (l.length : ℝ)) ^ 2).sum = 0 := by
    apply List.sum_eq_zero
    intro y hy
    rcases List.mem_map.1 hy with ⟨x, hx, rfl⟩
    rw [hmean, hc x hx, sub_self]
    ring
  unfold popStdDev popVariance
  rw [hzero, zero_div, Real.sqrt_zero]

/-- Claim C4: `stabilityScore` returns 1 on a series of fewer than two
samples, and otherwise `max(0, 1 - σ/15)` for σ the population standard
deviation; hence a constant series of length at least 2 gives 1 and a
series with σ at least 15 gives 0. -/
theorem stabilityScore_spec :
    (∀ l : List ℝ, l.length < 2 → stabilityScore l = 1) ∧
    (∀ l : List ℝ, 2 ≤ l.length → stabilityScore l = max 0 (1 - popStdDev l / 15)) ∧
    (∀ (l : List ℝ) (c : ℝ), 2 ≤ l.length → (∀ x ∈ l, x = c) → stabilityScore l = 1) ∧
    (∀ l : List ℝ, 2 ≤ l.length → 15 ≤ popStdDev l → stabilityScore l = 0) := by
  refine ⟨?_, stabilityScore_eq_decay, ?_, ?_⟩
  · intro l h
    unfold stabilityScore
    rw [if_pos h]
  · intro l c h2 hc
    rw [stabilityScore_eq_decay l h2, popStdDev_of_constant l c (by omega) hc]
    norm_num
  · intro l h2 hs
    rw [stabilityScore_eq_decay l h2]
    have h1 : (1 : ℝ) ≤ popStdDev l / 15 := (one_le_div (by norm_num)).2 hs
    exact max_eq_left (by linarith)

/-- Witness for C4 at concrete series. -/
theorem stabilityScore_spec_witness :
    stabilityScore [] = 1 ∧ stabilityScore [20, 20] = 1 ∧ stabilityScore [0, 30] = 0 := by
  have hsd : popStdDev [0, 30] = 15 := by
    have hv : popVariance [0, 30] = 225 := by
      norm_num [popVariance]
    rw [popStdDev, hv, show (225 : ℝ) = 15 ^ 2 by norm_num,
      Real.sqrt_sq (by norm_num : (0 : ℝ) ≤ 15)]
  refine ⟨stabilityScore_spec.1 [] (by norm_num), ?_, ?_⟩
  · exact stabilityScore_spec.2.2.1 [20, 20] 20 (by norm_num)
      (by intro x hx; simp at hx; simp [hx])
  · exact stabilityScore_spec.2.2.2 [0, 30] (by norm_num) (le_of_eq hsd.symm)

/-- Claim C5: `computeSessionScore` is 0 on the empty sequence and otherwise
the mean frame score times the stability factor times 100; in particular
0 for `([], anyFactor)`, 100 for `([{score: 1}], 1)` and 40 for
`([{score: 0.5}], 0.8)`. -/
theorem computeSessionScore_spec :
    (∀ stabilityFactor : ℚ, computeSessionScore [] stabilityFactor = 0) ∧
    (∀ (frameScores : List FrameScore) (stabilityFactor : ℚ), frameScores ≠ [] →
      computeSessionScore frameScores stabilityFactor =
        (frameScores.map FrameScore.score).sum / (frameScores.length : ℚ) *
          stabilityFactor * 100) ∧
    computeSessionScore [⟨1, 0, []⟩] 1 = 100 ∧
    computeSessionScore [⟨0.5, 0, []⟩] 0.8 = 40 := by
  refine ⟨fun f => by norm_num [computeSessionScore], ?_,
    by norm_num [computeSessionScore], by norm_num [computeSessionScore]⟩
  intro frameScores stabilityFactor hne
  unfold computeSessionScore
  rw [if_neg (by simpa using hne)]
  simp only [List.length_map]

/-- Witness for C5: the nonempty-sequence formula at a concrete sequence. -/
theorem computeSessionScore_spec_witness :
    computeSessionScore [⟨1, 0, []⟩] (1 / 2) =
      (([(⟨1, 0, []⟩ : FrameScore)].map FrameScore.score).sum /
        (([(⟨1, 0, []⟩ : FrameScore)].length : ℚ)) * (1 / 2) * 100) :=
  computeSessionScore_spec.2.1 [⟨1, 0, []⟩] (1 / 2) (by simp)

/-- Claim C2: `computeAngle` always returns a value in [0, 180], and returns
exactly 0 whenever A coincides with B or C coincides with B (both vectors
then have zero magnitude), including the case A = B = C. -/
theorem computeAngle_range_and_degenerate (jointA jointB jointC : Point3D) :
    0 ≤ computeAngle jointA jointB jointC ∧ computeAngle jointA jointB jointC ≤ 180 ∧
    ((jointA = jointB ∨ jointC = jointB) → computeAngle jointA jointB jointC = 0) := by
  simp only [computeAngle]
  split_ifs with h
  · refine ⟨le_refl 0, by norm_num, fun _ => rfl⟩
  · refine ⟨?_, ?_, ?_⟩
    · exact div_nonneg (mul_nonneg (Real.arccos_nonneg _) (by norm_num)) Real.pi_pos.le
    · rw [div_le_iff₀ Real.pi_pos]
      have harc := Real.arccos_le_pi (max (-1) (min 1
        (((jointA.x - jointB.x) * (jointC.x - jointB.x) +
          (jointA.y - jointB.y) * (jointC.y - jointB.y) +
          (jointA.z - jointB.z) * (jointC.z - jointB.z)) /
          (Real.sqrt ((jointA.x - jointB.x) ^ 2 + (jointA.y - jointB.y) ^ 2 +
              (jointA.z - jointB.z) ^ 2) *
            Real.sqrt ((jointC.x - jointB.x) ^ 2 + (jointC.y - jointB.y) ^ 2 +
              (jointC.z - jointB.z) ^ 2)))))
      nlinarith [Real.pi_pos]
    · intro hdeg
      exfalso
      apply h
      rcases hdeg with hAB | hCB
      · exact Or.inl (by rw [hAB]; norm_num)
      · exact Or.inr (by rw [hCB]; norm_num)

/-- Witness for C2: the fully degenerate input A = B = C returns 0 and is
within bounds. -/
theorem computeAngle_range_and_degenerate_witness :
    0 ≤ computeAngle ⟨0, 0, 0⟩ ⟨0, 0, 0⟩ ⟨0, 0, 0⟩ ∧
    computeAngle ⟨0, 0, 0⟩ ⟨0, 0, 0⟩ ⟨0, 0, 0⟩ = 0 :=
  ⟨(computeAngle_range_and_degenerate ⟨0, 0, 0⟩ ⟨0, 0, 0⟩ ⟨0, 0, 0⟩).1,
   (computeAngle_range_and_degenerate ⟨0, 0, 0⟩ ⟨0, 0, 0⟩ ⟨0, 0, 0⟩).2.2 (Or.inl rfl)⟩

/-- Claim C10: at hold completion the accuracy, symmetry and feedback of the
session result are functions of the last recorded frame only: the empty
sequence gives accuracy 0, symmetry 0 and no feedback; a sequence with last
frame `lastFrame` gives exactly the metrics of that frame, so two sequences
with the same last frame give the same metrics. -/
theorem completeLevelMetrics_last_frame_only (targetAngles tolerances weights : AngleMap) :
    completeLevelMetrics [] targetAngles tolerances weights = ⟨0, 0, []⟩ ∧
    (∀ (frameScores : List FrameScore) (lastFrame : FrameScore),
      frameScores.getLast? = some lastFrame →
      completeLevelMetrics frameScores targetAngles tolerances weights =
        ⟨computeAccuracy lastFrame.score, computeSymmetry lastFrame.angles,
         generateFeedback
           (similarityScore lastFrame.angles targetAngles tolerances weights).deviations
           targetAngles lastFrame.angles 3⟩) ∧
    (∀ frameScoresA frameScoresB : List FrameScore,
      frameScoresA.getLast? = frameScoresB.getLast? →
      completeLevelMetrics frameScoresA targetAngles tolerances weights =
        completeLevelMetrics frameScoresB targetAngles tolerances weights) := by
  refine ⟨rfl, ?_, ?_⟩
  · intro frameScores lastFrame h
    unfold completeLevelMetrics
    rw [h]
  · intro frameScoresA frameScoresB h
    unfold completeLevelMetrics
    rw [h]

/-- Witness for C10: a two-frame hold yields the same summary metrics as the
hold consisting of its final frame alone. -/
theorem completeLevelMetrics_last_frame_only_witness :
    completeLevelMetrics [⟨0.2, 0, [("a", 3)]⟩, ⟨1, 1, []⟩] [("a", 5)] [] [] =
      completeLevelMetrics [⟨1, 1, []⟩] [("a", 5)] [] [] :=
  (completeLevelMetrics_last_frame_only [("a", 5)] [] []).2.2
    [⟨0.2, 0, [("a", 3)]⟩, ⟨1, 1, []⟩] [⟨1, 1, []⟩] (by simp)

theorem lookupAngle_mem {m : AngleMap} {k : String} {v : ℚ}
    (h : lookupAngle m k = some v) : (k, v) ∈ m := by
  induction m with
  | nil => simp [lookupAngle] at h
  | cons p rest ih =>
    obtain ⟨pk, pv⟩ := p
    rw [lookupAngle] at h
    by_cases hk : pk = k
    · rw [if_pos hk] at h
      obtain rfl := hk
      obtain rfl : pv = v := Option.some.inj h
      exact List.mem_cons_self _ _
    · rw [if_neg hk] at h
      exact List.mem_cons_of_mem _ (ih h)

theorem orDefault_pos {m : AngleMap} {k : String} {d : ℚ}
    (hm : ∀ p ∈ m, 0 ≤ p.2) (hd : 0 < d) : 0 < orDefault (lookupAngle m k) d := by
  cases hl : lookupAngle m k with
  | none => simpa [orDefault] using hd
  | some v =>
    have hv : (0 : ℚ) ≤ v := hm (k, v) (lookupAngle_mem hl)
    rw [orDefault]
    split_ifs with h0
    · exact hd
    · exact lt_of_le_of_ne hv (Ne.symm h0)

theorem simLoop_bounds (userAngles tolerances weights : AngleMap)
    (htol : ∀ p ∈ tolerances, 0 ≤ p.2) (hw : ∀ p ∈ weights, 0 ≤ p.2) :
    ∀ targetList : List (String × ℚ),
      0 ≤ (simLoop userAngles tolerances weights targetList).totalWeight ∧
      0 ≤ (simLoop userAngles tolerances weights targetList).weightedSum ∧
      (simLoop userAngles tolerances weights targetList).weightedSum ≤
        (simLoop userAngles tolerances weights targetList).totalWeight := by
  intro targetList
  induction targetList with
  | nil => norm_num [simLoop]
  | cons p rest ih =>
    obtain ⟨angleName, targetAngle⟩ := p
    obtain ⟨h1, h2, h3⟩ := ih
    rw [simLoop]
    cases hu : lookupAngle userAngles angleName with
    | none => exact ⟨h1, h2, h3⟩
    | some userAngle =>
      have htolpos : 0 < orDefault (lookupAngle tolerances angleName) 30 :=
        orDefault_pos htol (by norm_num)
      have hwpos : 0 < orDefault (lookupAngle weights angleName) 1 :=
        orDefault_pos hw (by norm_num)
      have hscore0 : (0 : ℚ) ≤ max 0
          (1 - |userAngle - targetAngle| / orDefault (lookupAngle tolerances angleName) 30) :=
        le_max_left _ _
      have hscore1 : max 0
          (1 - |userAngle - targetAngle| / orDefault (lookupAngle tolerances angleName) 30) ≤ 1 := by
        apply max_le (by norm_num)
        have hq : (0 : ℚ) ≤ |userAngle - targetAngle| /
            orDefault (lookupAngle tolerances angleName) 30 :=
          div_nonneg (abs_nonneg _) htolpos.le
        linarith
      refine ⟨add_nonneg h1 hwpos.le, add_nonneg h2 (mul_nonneg hscore0 hwpos.le), ?_⟩
      have hterm : max 0
            (1 - |userAngle - targetAngle| / orDefault (lookupAngle tolerances angleName) 30) *
            orDefault (lookupAngle weights angleName) 1 ≤
          orDefault (lookupAngle weights angleName) 1 :=
        mul_le_of_le_one_left hwpos.le hscore1
      exact add_le_add h3 hterm

/-- Claim C1 (amended): for tolerance and weight mappings whose supplied
values are all nonnegative, the score component of `similarityScore` lies in
[0, 1].  (As stated over arbitrary mappings the claim is false: a negative
supplied tolerance or weight escapes the interval, see the counterexample.) -/
theorem similarityScore_score_in_unit_interval
    (userAngles targetAngles tolerances weights : AngleMap)
    (htol : ∀ p ∈ tolerances, 0 ≤ p.2) (hw : ∀ p ∈ weights, 0 ≤ p.2) :
    0 ≤ (similarityScore userAngles targetAngles tolerances weights).score ∧
    (similarityScore userAngles targetAngles tolerances weights).score ≤ 1 := by
  obtain ⟨h1, h2, h3⟩ := simLoop_bounds userAngles tolerances weights htol hw targetAngles
  unfold similarityScore
  dsimp only
  split_ifs with hpos
  · exact ⟨div_nonneg h2 h1, (div_le_one hpos).2 h3⟩
  · norm_num

/-- Counterexample for C1 as stated: a supplied tolerance of -30 drives the
score to 2, outside [0, 1]. -/
theorem similarityScore_score_in_unit_interval_cex :
    (similarityScore [("a", 40)] [("a", 10)] [("a", -30)] []).score = 2 ∧
    ¬((similarityScore [("a", 40)] [("a", 10)] [("a", -30)] []).score ≤ 1) := by
  constructor <;> norm_num +decide [similarityScore, simLoop, lookupAngle, orDefault]

/-- Witness for C1 at a concrete nonnegative configuration. -/
theorem similarityScore_score_in_unit_interval_witness :
    0 ≤ (similarityScore [("a", 40)] [("a", 10)] [("a", 20)] [("a", 2)]).score ∧
    (similarityScore [("a", 40)] [("a", 10)] [("a", 20)] [("a", 2)]).score ≤ 1 :=
  similarityScore_score_in_unit_interval [("a", 40)] [("a", 10)] [("a", 20)] [("a", 2)]
    (by norm_num [List.forall_mem_cons]) (by norm_num [List.forall_mem_cons])

theorem simLoop_perfect (userAngles tolerances weights : AngleMap)
    (hw : ∀ p ∈ weights, 0 ≤ p.2) :
    ∀ targetList : List (String × ℚ),
      (∀ p ∈ targetList, ∀ u, lookupAngle userAngles p.1 = some u → u = p.2) →
      ((simLoop userAngles tolerances weights targetList).weightedSum =
          (simLoop userAngles tolerances weights targetList).totalWeight ∧
        0 ≤ (simLoop userAngles tolerances weights targetList).totalWeight ∧
        ((∃ p ∈ targetList, (lookupAngle userAngles p.1).isSome) →
          0 < (simLoop userAngles tolerances weights targetList).totalWeight)) := by
  intro targetList
  induction targetList with
  | nil =>
    intro _
    refine ⟨rfl, le_refl 0, ?_⟩
    rintro ⟨p, hp, _⟩
    simp at hp
  | cons p rest ih =>
    intro hmatch
    obtain ⟨angleName, targetAngle⟩ := p
    obtain ⟨h1, h2, h3⟩ := ih fun q hq => hmatch q (List.mem_cons_of_mem _ hq)
    rw [simLoop]
    cases hu : lookupAngle userAngles angleName with
    | none =>
      refine ⟨h1, h2, ?_⟩
      rintro ⟨q, hq, hqs⟩
      rcases List.mem_cons.1 hq with rfl | hq'
      · rw [hu] at hqs
        simp at hqs
      · exact h3 ⟨q, hq', hqs⟩
    | some userAngle =>
      have hwpos : 0 < orDefault (lookupAngle weights angleName) 1 :=
        orDefault_pos hw (by norm_num)
      have hueq : userAngle = targetAngle :=
        hmatch (angleName, targetAngle) (List.mem_cons_self _ _) userAngle hu
      have hdiff : |userAngle - targetAngle| = 0 := by
        rw [hueq, sub_self, abs_zero]
      have hscore : max 0 (1 - |userAngle - targetAngle| /
          orDefault (lookupAngle tolerances angleName) 30) = 1 := by
        rw [hdiff, zero_div]
        norm_num
      dsimp only
      rw [hscore]
      refine ⟨by rw [h1]; ring, add_nonneg h2 hwpos.le, fun _ => by linarith⟩

/-- Claim C3 (amended): if at least one angle name is present in both the
target and the user mappings, every supplied weight is nonnegative, and the
deviation is 0 for every angle present in both, then `similarityScore`
returns score 1.  (As stated the claim is false: with no common angle the
hypothesis is vacuous but the score is 0, and a negative supplied weight can
also force the score to 0, see the counterexample.) -/
theorem similarityScore_perfect_match
    (userAngles targetAngles tolerances weights : AngleMap)
    (hcommon : ∃ p ∈ targetAngles, (lookupAngle userAngles p.1).isSome)
    (hw : ∀ p ∈ weights, 0 ≤ p.2)
    (hmatch : ∀ p ∈ targetAngles, ∀ u, lookupAngle userAngles p.1 = some u → u = p.2) :
    (similarityScore userAngles targetAngles tolerances weights).score = 1 := by
  obtain ⟨h1, _, h3⟩ :=
    simLoop_perfect userAngles tolerances weights hw targetAngles hmatch
  have hpos := h3 hcommon
  unfold similarityScore
  dsimp only
  rw [if_pos hpos, h1, div_self (ne_of_gt hpos)]

/-- Counterexample for C3 as stated: with no common angle the deviation
hypothesis is vacuously true yet the score is 0, and a common angle with
deviation 0 but supplied weight -1 also yields score 0, not 1. -/
theorem similarityScore_perfect_match_cex :
    (similarityScore [] [("a", 10)] [] []).score = 0 ∧
    lookupAngle (similarityScore [("a", 10)] [("a", 10)] [] [("a", -1)]).deviations "a" =
      some 0 ∧
    (similarityScore [("a", 10)] [("a", 10)] [] [("a", -1)]).score = 0 := by
  refine ⟨?_, ?_, ?_⟩ <;>
    norm_num +decide [similarityScore, simLoop, lookupAngle, orDefault]

/-- Witness for C3 at a concrete perfect match. -/
theorem similarityScore_perfect_match_witness :
    (similarityScore [("a", 10), ("b", 7)] [("a", 10)] [("a", 30)] [("a", 2)]).score = 1 :=
  similarityScore_perfect_match [("a", 10), ("b", 7)] [("a", 10)] [("a", 30)] [("a", 2)]
    ⟨("a", 10), by norm_num, by norm_num +decide [lookupAngle]⟩
    (by norm_num [List.forall_mem_cons])
    (by
      intro p hp u hu
      simp only [List.mem_singleton] at hp
      subst hp
      norm_num +decide [lookupAngle] at hu
      simpa using hu.symm)

theorem simLoop_deviations_lookup (userAngles tolerances weights : AngleMap)
    (angleName : String) :
    ∀ targetList : List (String × ℚ),
      lookupAngle (simLoop userAngles tolerances weights targetList).deviations angleName =
        (lookupAngle targetList angleName).bind fun t =>
          (lookupAngle userAngles angleName).map fun u => |u - t| := by
  intro targetList
  induction targetList with
  | nil => simp [simLoop, lookupAngle]
  | cons p rest ih =>
    obtain ⟨n, t⟩ := p
    rw [simLoop]
    cases hu : lookupAngle userAngles n with
    | none =>
      by_cases hn : n = angleName
      · subst hn
        rw [ih, hu]
        simp only [lookupAngle, if_pos rfl, Option.bind_some, Option.map_none]
        cases lookupAngle rest n <;> simp
      · rw [ih]
        simp only [lookupAngle, if_neg hn]
    | some userAngle =>
      dsimp only
      by_cases hn : n = angleName
      · subst hn
        simp [lookupAngle, hu]
      · simp only [lookupAngle, if_neg hn]
        exact ih

/-- Claim C8: the deviations record of `similarityScore` has an entry for an
angle name exactly when the name is present in both the target and the user
mapping, and that entry is `|user - target|`, independently of the supplied
tolerances and weights. -/
theorem similarityScore_deviations_spec
    (userAngles targetAngles tolerances weights : AngleMap) (angleName : String) :
    (lookupAngle (similarityScore userAngles targetAngles tolerances weights).deviations
        angleName =
      (lookupAngle targetAngles angleName).bind fun t =>
        (lookupAngle userAngles angleName).map fun u => |u - t|) ∧
    ((lookupAngle (similarityScore userAngles targetAngles tolerances weights).deviations
        angleName).isSome ↔
      (lookupAngle targetAngles angleName).isSome ∧
      (lookupAngle userAngles angleName).isSome) := by
  have h := simLoop_deviations_lookup userAngles tolerances weights angleName targetAngles
  have hdev : (similarityScore userAngles targetAngles tolerances weights).deviations =
      (simLoop userAngles tolerances weights targetAngles).deviations := rfl
  refine ⟨by rw [hdev, h], ?_⟩
  rw [hdev, h]
  cases lookupAngle targetAngles angleName <;>
    cases lookupAngle userAngles angleName <;> simp

theorem lookupAngle_replaceZeroValues (d : ℚ) (m : AngleMap) (k : String) :
    lookupAngle (replaceZeroValues d m) k =
      (lookupAngle m k).map fun v => if v = 0 then d else v := by
  induction m with
  | nil => simp [replaceZeroValues, lookupAngle]
  | cons p rest ih =>
    obtain ⟨pk, pv⟩ := p
    by_cases hk : pk = k
    · simp [replaceZeroValues, lookupAngle, hk]
    · simp only [replaceZeroValues, lookupAngle, List.map_cons, if_neg hk]
      simpa [replaceZeroValues] using ih

theorem orDefault_replaceZeroValues (d : ℚ) (m : AngleMap) (k : String) :
    orDefault (lookupAngle (replaceZeroValues d m) k) d =
      orDefault (lookupAngle m k) d := by
  rw [lookupAngle_replaceZeroValues]
  cases lookupAngle m k with
  | none => rfl
  | some v =>
    by_cases hv : v = 0
    · subst hv
      simp [orDefault]
    · simp [orDefault, hv]

theorem simLoop_replaceZeroValues (userAngles tolerances weights : AngleMap) :
    ∀ targetList : List (String × ℚ),
      simLoop userAngles (replaceZeroValues 30 tolerances)
          (replaceZeroValues 1 weights) targetList =
        simLoop userAngles tolerances weights targetList := by
  intro targetList
  induction targetList with
  | nil => rfl
  | cons p rest ih =>
    obtain ⟨n, t⟩ := p
    rw [simLoop, simLoop, ih]
    cases hu : lookupAngle userAngles n with
    | none => rfl
    | some userAngle =>
      dsimp only
      rw [orDefault_replaceZeroValues, orDefault_replaceZeroValues]

/-- Claim C9: `similarityScore` coalesces falsy supplied values: a supplied
tolerance of exactly 0 behaves as the default 30 and a supplied weight of
exactly 0 behaves as the default 1; hence a zero weight does not exclude an
angle from the weighted mean (a perfect match under zero weights still
scores 1, not the zero-total-weight fallback 0) and a zero tolerance does
not force the per-angle score to 0. -/
theorem similarityScore_falsy_defaults
    (userAngles targetAngles tolerances weights : AngleMap) :
    (similarityScore userAngles targetAngles (replaceZeroValues 30 tolerances)
        (replaceZeroValues 1 weights) =
      similarityScore userAngles targetAngles tolerances weights) ∧
    (similarityScore [("a", 5)] [("a", 5)] [("a", 0)] [("a", 0)]).score = 1 ∧
    0 < (similarityScore [("a", 5)] [("a", 6)] [("a", 0)] [("a", 0)]).score := by
  refine ⟨?_, ?_, ?_⟩
  · unfold similarityScore
    rw [simLoop_replaceZeroValues]
  · norm_num +decide [similarityScore, simLoop, lookupAngle, orDefault]
  · norm_num +decide [similarityScore, simLoop, lookupAngle, orDefault]

theorem symLoop_eq_pairSymmetries (userAngles : AngleMap) :
    ∀ pairs : List (String × String),
      symLoop userAngles pairs =
        ((pairSymmetries userAngles pairs).sum, (pairSymmetries userAngles pairs).length) := by
  intro pairs
  induction pairs with
  | nil => simp [symLoop, pairSymmetries]
  | cons p rest ih =>
    obtain ⟨left, right⟩ := p
    rw [symLoop]
    cases hl : lookupAngle userAngles left <;> cases hr : lookupAngle userAngles right <;>
      simp [pairSymmetries, List.filterMap_cons, hl, hr, ih, Prod.ext_iff, add_comm]

/-- Claim C6: `computeSymmetry` equals the integer rounding of 100 times the
mean of `max(0, 1 - |left - right|/180)` over exactly the complete
left/right pairs of the fixed four-pair table (incomplete pairs excluded
from numerator and denominator), is 0 when no pair is complete, and returns
100 when all four pairs are present with identical left and right values. -/
theorem computeSymmetry_spec (userAngles : AngleMap) :
    (computeSymmetry userAngles =
      if (pairSymmetries userAngles symmetryPairs).length = 0 then 0
      else jsRound ((pairSymmetries userAngles symmetryPairs).sum /
        ((pairSymmetries userAngles symmetryPairs).length : ℚ) * 100)) ∧
    (∀ a b c d : ℚ,
      lookupAngle userAngles "left_shoulder_angle" = some a →
      lookupAngle userAngles "right_shoulder_angle" = some a →
      lookupAngle userAngles "left_elbow_angle" = some b →
      lookupAngle userAngles "right_elbow_angle" = some b →
      lookupAngle userAngles "left_hip_angle" = some c →
      lookupAngle userAngles "right_hip_angle" = some c →
      lookupAngle userAngles "left_knee_angle" = some d →
      lookupAngle userAngles "right_knee_angle" = some d →
      computeSymmetry userAngles = 100) := by
  constructor
  · unfold computeSymmetry
    rw [symLoop_eq_pairSymmetries]
    dsimp only
    rcases Nat.eq_zero_or_pos (pairSymmetries userAngles symmetryPairs).length with h | h
    · rw [if_neg (by omega), if_pos h]
    · rw [if_pos h, if_neg (by omega)]
  · intro a b c d h1 h2 h3 h4 h5 h6 h7 h8
    unfold computeSymmetry
    rw [symLoop_eq_pairSymmetries]
    have hps : pairSymmetries userAngles symmetryPairs = [1, 1, 1, 1] := by
      simp only [pairSymmetries, symmetryPairs, List.filterMap_cons, List.filterMap_nil,
        h1, h2, h3, h4, h5, h6, h7, h8]
      norm_num
    rw [hps]
    simp only [List.sum_cons, List.sum_nil, List.length_cons, List.length_nil, jsRound]
    norm_num

/-- Witness for C6 at a concrete fully symmetric frame. -/
theorem computeSymmetry_spec_witness :
    computeSymmetry [("left_shoulder_angle", 10), ("right_shoulder_angle", 10),
      ("left_elbow_angle", 20), ("right_elbow_angle", 20),
      ("left_hip_angle", 30), ("right_hip_angle", 30),
      ("left_knee_angle", 40), ("right_knee_angle", 40)] = 100 :=
  (computeSymmetry_spec _).2 10 20 30 40
    (by norm_num +decide [lookupAngle]) (by norm_num +decide [lookupAngle])
    (by norm_num +decide [lookupAngle]) (by norm_num +decide [lookupAngle])
    (by norm_num +decide [lookupAngle]) (by norm_num +decide [lookupAngle])
    (by norm_num +decide [lookupAngle]) (by norm_num +decide [lookupAngle])

theorem feedbackLoop_eq_filterMap (targetAngles userAngles : AngleMap) :
    ∀ entries : AngleMap,
      feedbackLoop targetAngles userAngles entries =
        (entries.filter fun p => decide (10 ≤ p.2)).map
          fun p => hintText targetAngles userAngles p.1 := by
  intro entries
  induction entries with
  | nil => rfl
  | cons p rest ih =>
    obtain ⟨n, d⟩ := p
    rw [feedbackLoop]
    by_cases hd : d < 10
    · rw [if_pos hd, ih]
      have h10 : ¬(10 ≤ d) := not_le.2 hd
      simp [List.filter_cons, h10]
    · rw [if_neg hd, ih]
      have h10 : (10 : ℚ) ≤ d := not_lt.1 hd
      simp [List.filter_cons, h10]

/-- Claim C7: `generateFeedback` returns at most `maxHints` hints, and the
returned hints are exactly the renderings of the entries with deviation at
least 10 among the top `maxHints` sorted deviations — sub-threshold entries
are dropped without replacement, so no hint stems from a deviation below 10
and the result may be shorter than `maxHints` or empty. -/
theorem generateFeedback_spec (deviations targetAngles userAngles : AngleMap)
    (maxHints : ℕ) :
    (generateFeedback deviations targetAngles userAngles maxHints).length ≤ maxHints ∧
    generateFeedback deviations targetAngles userAngles maxHints =
      (((sortDevs deviations).take maxHints).filter fun p => decide (10 ≤ p.2)).map
        fun p => hintText targetAngles userAngles p.1 := by
  have heq := feedbackLoop_eq_filterMap targetAngles userAngles
    ((sortDevs deviations).take maxHints)
  have hgen : generateFeedback deviations targetAngles userAngles maxHints =
      feedbackLoop targetAngles userAngles ((sortDevs deviations).take maxHints) := rfl
  refine ⟨?_, by rw [hgen, heq]⟩
  rw [hgen, heq, List.length_map]
  calc ((((sortDevs deviations).take maxHints).filter fun p => decide (10 ≤ p.2)).length)
      ≤ ((sortDevs deviations).take maxHints).length := List.length_filter_le _ _
    _ ≤ maxHints := by
        rw [List.length_take]
        exact min_le_left _ _
